import Mathlib

/-!
Shallow embedding of the `remidt_renovasjon` Home Assistant integration
(calendar, binary-sensor and service code from
`custom_components/remidt_renovasjon/`), together with theorems checking
the natural-language specification against it.

Dates are modelled as day numbers (`Nat`): a Python `datetime` is a day
number plus a time-of-day, and `datetime.date()` drops the time-of-day;
`timedelta(days=1)` is `+ 1`; `date.isoformat()` is modelled as an
injective digit rendering (it never contains an underscore, which is the
only property the uid construction relies on).  Python dicts are modelled
as association lists in insertion order.
-/

/-- A Python `datetime`: a calendar day number together with a
time-of-day component that `datetime.date()` discards. -/
structure PyDateTime where
  day : Nat
  secondsOfDay : Nat
deriving DecidableEq, Repr

/-- Python `datetime.date()`: the calendar date (day number) of a datetime. -/
def PyDateTime.date (dt : PyDateTime) : Nat := dt.day

/-- Embeds `api.WasteDisposal`: one scheduled collection event for one fraction
on one date (`date` is a `datetime`, `description` optional). -/
structure WasteDisposal where
  date : PyDateTime
  fraction : String
  description : Option String
  symbol_id : Nat
deriving DecidableEq, Repr

/-- Embeds `coordinator.RenovasjonData`: the coordinator's published snapshot.
`disposals_by_fraction` is a Python dict, modelled as an association
list in insertion order. -/
structure RenovasjonData where
  address_id : String
  address_name : String
  municipality : String
  disposals_by_fraction : List (String × List WasteDisposal)
deriving DecidableEq, Repr

/-- Modelled from the spec: `coordinator.py` is not under `src/`; per the
spec's data model, "`fractions` is the key set of the map"
`disposals_by_fraction`. -/
def RenovasjonData.fractions (d : RenovasjonData) : List String :=
  d.disposals_by_fraction.map (·.1)

/-- One entry of the `WASTE_FRACTIONS` table: the per-fraction config
dict may carry a `translation_key` and an `icon`. -/
structure FractionConfig where
  translation_key : Option String
  icon : Option String
deriving DecidableEq, Repr

/-- Modelled from the spec: `const.py` (and with it the concrete
`WASTE_FRACTIONS` table) is not under `src/`.  The spec describes the
table only as supplying fraction-specific icons and translation keys for
known fractions.  The one entry pinned by in-repo evidence is kept:
`test_binary_sensor.py` (`test_sensor_icon_when_off`) asserts that
"Restavfall"'s off-state icon is `"mdi:trash-can"`, so the real table
configures that icon for "Restavfall" (its translation key is nowhere
pinned and is left unconfigured).  Fractions without a table entry take
the code's default translation key and default icon.  All general
theorems below are parametric in the table. -/
def WASTE_FRACTIONS : List (String × FractionConfig) :=
  [("Restavfall", ⟨none, some "mdi:trash-can"⟩)]

/-- Python `fraction.lower().replace(" ", "_")`: the default translation key
computed in `calendar.py` and `binary_sensor.py`, realized per
character (lower-casing and the single-character replacement both act
character-wise). -/
def defaultTranslationKey (fraction : String) : String :=
  ⟨fraction.data.map fun c => if c = ' ' then '_' else c.toLower⟩

/-- Python `WASTE_FRACTIONS.get(fraction, {}).get("translation_key", default)`. -/
def translationKeyOf (table : List (String × FractionConfig))
    (fraction : String) : String :=
  match (table.lookup fraction).bind (·.translation_key) with
  | some t => t
  | none => defaultTranslationKey fraction

/-- Python `WASTE_FRACTIONS.get(fraction, {}).get("icon", "mdi:calendar-check")`:
the fallback icon stored as `self._icon` in `binary_sensor.py`. -/
def fractionIconOf (table : List (String × FractionConfig))
    (fraction : String) : String :=
  match (table.lookup fraction).bind (·.icon) with
  | some i => i
  | none => "mdi:calendar-check"

/-- The character for a decimal digit. -/
def decDigitChar (d : Nat) : Char := Char.ofNat (48 + d)

/-- Little-endian decimal digits of `n`, with explicit fuel so that the
recursion is structural (`fuel ≥ n` makes it total). -/
def decDigitsRev : Nat → Nat → List Nat
  | 0, _ => []
  | _ + 1, 0 => []
  | fuel + 1, n + 1 => ((n + 1) % 10) :: decDigitsRev fuel ((n + 1) / 10)

/-- Python `date.isoformat()`, abstracted: an injective rendering of the date as
decimal digit characters (most significant first).  Like the real
`YYYY-MM-DD` rendering it contains no underscore. -/
def Nat.isoDate (n : Nat) : String :=
  ⟨(decDigitsRev n n).reverse.map decDigitChar⟩

/-- Embeds `homeassistant.components.calendar.CalendarEvent`, restricted to the
fields the integration sets: an all-day event has a start date and an
(exclusive) end date. -/
structure CalendarEvent where
  start : Nat
  end_ : Nat
  summary : String
  description : Option String
  uid : String
deriving DecidableEq, Repr

/-- The uid built in `calendar.py`:
`f"{entry_id}_calendar"` (the calendar's `_attr_unique_id`) followed by
`_{translation_key}_{event_date.isoformat()}`. -/
def calendarUid (entryId tkey : String) (day : Nat) : String :=
  entryId ++ "_calendar" ++ "_" ++ tkey ++ "_" ++ Nat.isoDate day

/-- The `CalendarEvent` appended for one disposal in
`RenovasjonCalendar._get_events_for_range`. -/
def mkCalendarEvent (entryId : String) (table : List (String × FractionConfig))
    (fraction : String) (w : WasteDisposal) : CalendarEvent :=
  { start := w.date.date
    end_ := w.date.date + 1
    summary := fraction
    description := w.description
    uid := calendarUid entryId (translationKeyOf table fraction) w.date.date }

/-- Embeds `RenovasjonCalendar._get_events_for_range`: when the coordinator has
no snapshot return `[]`; otherwise collect, over the fraction groups in
dict order, one event per disposal whose calendar date lies in
`[start, end]`, then sort (stably) by event start. -/
def getEventsForRange (entryId : String) (table : List (String × FractionConfig))
    (data : Option RenovasjonData) (start end_ : Nat) : List CalendarEvent :=
  match data with
  | none => []
  | some d =>
    let events := d.disposals_by_fraction.flatMap fun p =>
      (p.2.filter fun w =>
        decide (start ≤ w.date.date) && decide (w.date.date ≤ end_)).map
        (mkCalendarEvent entryId table p.1)
    events.mergeSort fun a b => a.start ≤ b.start

/-- Embeds the `RenovasjonCalendar.event` property: `None` without a snapshot; otherwise the
head of `_get_events_for_range(today, today + 365 days)`, or `None` when
that list is empty. -/
def nextEvent (entryId : String) (table : List (String × FractionConfig))
    (data : Option RenovasjonData) (today : Nat) : Option CalendarEvent :=
  match data with
  | none => none
  | some _ =>
    match getEventsForRange entryId table data today (today + 365) with
    | [] => none
    | e :: _ => some e

/-- Embeds `RenovasjonCollectionTodaySensor.is_on`: `None` without a snapshot;
otherwise whether any disposal stored under the sensor's fraction
(`disposals_by_fraction.get(fraction, [])`) has calendar date equal to
today. -/
def isOn (data : Option RenovasjonData) (fraction : String) (today : Nat) :
    Option Bool :=
  match data with
  | none => none
  | some d =>
    let disposals := (d.disposals_by_fraction.lookup fraction).getD []
    some (disposals.any fun w => w.date.date == today)

/-- Embeds `RenovasjonCollectionTodaySensor.icon`: the generic check icon when
`is_on` is truthy, otherwise the stored `self._icon` (Python truthiness:
both `False` and `None` take the second branch). -/
def sensorIcon (table : List (String × FractionConfig))
    (data : Option RenovasjonData) (fraction : String) (today : Nat) : String :=
  match isOn data fraction today with
  | some true => "mdi:calendar-check"
  | _ => fractionIconOf table fraction

/-- The identity of one `RenovasjonCollectionTodaySensor` created by the
binary-sensor platform's `async_setup_entry`. -/
structure TodaySensor where
  entry_id : String
  fraction : String
deriving DecidableEq, Repr

/-- Embeds `binary_sensor.async_setup_entry` after the first refresh: no
entities when the snapshot is falsy (`None`); otherwise one
`RenovasjonCollectionTodaySensor` per fraction key of the snapshot (a
`RenovasjonData` instance is always truthy). -/
def setupBinarySensorEntities (entryId : String)
    (data : Option RenovasjonData) : List TodaySensor :=
  match data with
  | none => []
  | some d => d.fractions.map fun f => ⟨entryId, f⟩

/-- The data of a `refresh` service call: `call.data.get("entry_id")`
(`vol.Optional`, so possibly absent; `cv.string` admits any string). -/
structure ServiceCallData where
  entry_id : Option String
deriving DecidableEq, Repr

/-- Outcome of the `refresh` service handler.  A coordinator is modelled
by its refresh count, the registry `hass.data[DOMAIN]` by an association
list from entry id to refresh count; a successful call returns the
updated registry, an unknown entry id raises `ServiceValidationError`. -/
inductive ServiceResult where
  | ok (registry : List (String × Nat))
  | validationError (entry_id : String)
deriving DecidableEq, Repr

/-- Embeds `async_refresh_service` from `__init__.py`: read `entry_id` from the
call data; `if entry_id:` (Python truthiness, so an absent *or empty*
id takes the else branch) refresh the one coordinator registered under
it, raising `ServiceValidationError` when it is not registered; else
refresh every registered coordinator. -/
def refreshService (registry : List (String × Nat))
    (call : ServiceCallData) : ServiceResult :=
  let truthy := match call.entry_id with
    | some s => s != ""
    | none => false
  if truthy then
    match call.entry_id with
    | some eid =>
      if (registry.lookup eid).isSome then
        .ok (registry.map fun p => if p.1 = eid then (p.1, p.2 + 1) else p)
      else
        .validationError eid
    | none => .ok registry
  else
    .ok (registry.map fun p => (p.1, p.2 + 1))

/-- First-occurrence key order of a disposal list: the fraction of each
disposal, deduplicated keeping first occurrences (Python dict insertion
order). -/
def fractionKeys : List WasteDisposal → List String
  | [] => []
  | w :: ws => w.fraction :: (fractionKeys ws).filter (· ≠ w.fraction)

/-- Modelled from the spec: `coordinator.py` is not under `src/`.  Per
the spec the coordinator, on each successful fetch, "groups results by
`fraction`" into `disposals_by_fraction`, preserving upstream order
within each group; dict keys appear in insertion (first-occurrence)
order. -/
def groupByFraction (disposals : List WasteDisposal) :
    List (String × List WasteDisposal) :=
  (fractionKeys disposals).map fun k =>
    (k, disposals.filter fun w => w.fraction == k)

/-- Embeds `api.AddressSearchResult`: one address hit, held during the config
flow wizard. -/
structure AddressSearchResult where
  id : String
  title : String
  municipality : String
deriving DecidableEq, Repr

/-- The config-entry data written by the config flow:
`{address_id, address_name, municipality}`. -/
structure EntryData where
  address_id : String
  address_name : String
  municipality : String
deriving DecidableEq, Repr

/-- Result of one config-flow step: either a form is (re-)shown with
field/base errors, or an entry is created/updated. -/
inductive FlowStepResult where
  | form (step_id : String) (errors : List (String × String))
  | entryResult (title : String) (data : EntryData)
deriving DecidableEq, Repr

/-- Outcome of the `get_disposals` validation call made by the select
step (the API error taxonomy of `api.py`). -/
inductive ApiOutcome where
  | ok (disposals : List WasteDisposal)
  | connectionError
  | apiError
deriving DecidableEq, Repr

/-- Modelled from the spec: `config_flow.py` is not under `src/`.  Spec
§4.3, select/reconfigure_select step: "an id not present in the cache ⇒
base error `invalid_address` (re-show same step); valid id ⇒ validate by
calling `get_disposals` (catching the same connection/API error
taxonomy) then create or update the config entry with `{address_id,
address_name, municipality}` and title `<name>, <municipality>`".
`cached` is the flow-local `self._addresses` from the last search,
`stepId` the step being run (`select` or `reconfigure_select`). -/
def stepSelect (stepId : String) (cached : List AddressSearchResult)
    (addressId : String) (validate : ApiOutcome) : FlowStepResult :=
  match cached.find? fun a => a.id == addressId with
  | none => .form stepId [("base", "invalid_address")]
  | some a =>
    match validate with
    | .connectionError => .form stepId [("base", "cannot_connect")]
    | .apiError => .form stepId [("base", "unknown")]
    | .ok _ => .entryResult (a.title ++ ", " ++ a.municipality)
        ⟨a.id, a.title, a.municipality⟩

/-- The fields of a config entry that diagnostics serializes. -/
structure ConfigEntryInfo where
  entry_id : String
  version : Nat
  domain : String
  title : String
  data : EntryData
  options_update_interval : Option Nat
deriving DecidableEq, Repr

/-- The coordinator state diagnostics reads: the optional snapshot, the
last-update-success flag, and the optional last exception (an exception
is modelled by its `str(...)` rendering). -/
structure CoordinatorState where
  data : Option RenovasjonData
  last_update_success : Bool
  last_exception : Option String
deriving DecidableEq, Repr

/-- One top-level section of the diagnostics dictionary. -/
inductive DiagSection where
  | configEntrySection (entry : ConfigEntryInfo)
  | coordinatorSection (last_update_success : Bool)
      (last_exception : Option String)
  | dataSection (d : RenovasjonData)
deriving DecidableEq, Repr

/-- Modelled from the spec: `diagnostics.py` is not under `src/`.  Per
the spec, diagnostics is a "pure projection — entry metadata + options,
coordinator's last success flag and last exception (stringified or
null), and, when data is present, the full `RenovasjonData` serialized
field-by-field"; the `data` key is omitted entirely when the snapshot is
`None`.  The output dict is modelled as an association list of top-level
sections. -/
def configEntryDiagnostics (entry : ConfigEntryInfo)
    (coord : CoordinatorState) : List (String × DiagSection) :=
  [("config_entry", .configEntrySection entry),
   ("coordinator", .coordinatorSection coord.last_update_success
      coord.last_exception)]
  ++ match coord.data with
     | none => []
     | some d => [("data", .dataSection d)]

/-- A concrete snapshot used by witnesses: two fractions, with a
"Matavfall" collection on day 6 and "Restavfall" collections on days 5
and 12 (the day-5 one carrying a nonzero time-of-day). -/
def sampleSnapshot : RenovasjonData :=
  { address_id := "test-uuid"
    address_name := "Test Street 1"
    municipality := "Test Municipality"
    disposals_by_fraction :=
      [("Restavfall",
        [⟨⟨5, 3600⟩, "Restavfall", none, 15⟩,
         ⟨⟨12, 0⟩, "Restavfall", none, 15⟩]),
       ("Matavfall",
        [⟨⟨6, 0⟩, "Matavfall", some "Food waste", 0⟩])] }

/-- A concrete snapshot whose only fraction, "Spesialinnsamling 2026",
has no entry in any fraction-config table: the snapshot's fraction keys
come from live API data, so the binary-sensor platform creates sensors
for such unconfigured fractions too.  Its one disposal is on day 12. -/
def unconfiguredSnapshot : RenovasjonData :=
  { address_id := "test-uuid"
    address_name := "Test Street 1"
    municipality := "Test Municipality"
    disposals_by_fraction :=
      [("Spesialinnsamling 2026",
        [⟨⟨12, 0⟩, "Spesialinnsamling 2026", none, 99⟩])] }

/-- A concrete config-entry section used by the diagnostics witness. -/
def sampleEntryInfo : ConfigEntryInfo :=
  { entry_id := "test_entry_id"
    version := 1
    domain := "remidt_renovasjon"
    title := "Test Address"
    data := ⟨"test-uuid", "Test Street 1", "Test Municipality"⟩
    options_update_interval := some 12 }
/-- Claim C2: the per-fraction binary sensor's `is_on` is `true` iff some
disposal stored under the sensor's fraction has calendar date equal to
the current date, `false` otherwise, and `None` whenever the coordinator
snapshot is `None`. -/
theorem c2_binary_sensor_is_on (d : RenovasjonData) (fraction : String)
    (today : Nat) :
    isOn none fraction today = none ∧
    (isOn (some d) fraction today = some true ↔
      ∃ w ∈ (d.disposals_by_fraction.lookup fraction).getD [],
        w.date.date = today) ∧
    (isOn (some d) fraction today = some false ↔
      ¬ ∃ w ∈ (d.disposals_by_fraction.lookup fraction).getD [],
        w.date.date = today) := by
  refine ⟨rfl, ?_, ?_⟩
  · simp [isOn, List.any_eq_true]
  · simp [isOn, List.any_eq_true]

/-- Claim C10: the binary-sensor platform's setup creates no entities
when the snapshot is `None`, and otherwise exactly one
`RenovasjonCollectionTodaySensor` per fraction key of the snapshot taken
at that moment (the entity list is a function of that snapshot alone, so
fractions appearing only in later snapshots never receive a sensor). -/
theorem c10_setup_entities (entryId : String) (d : RenovasjonData) :
    setupBinarySensorEntities entryId none = [] ∧
    (setupBinarySensorEntities entryId (some d)).map (·.fraction) =
      d.fractions ∧
    (setupBinarySensorEntities entryId (some d)).length =
      d.fractions.length := by
  refine ⟨rfl, ?_, ?_⟩ <;>
    simp [setupBinarySensorEntities, List.map_map, Function.comp_def]

/-- Claim C5: in the select and reconfigure_select steps, a submitted
address id absent from the addresses cached by the last search re-shows
the same selection form with base error `invalid_address` and never
creates or updates a config entry. -/
theorem c5_select_invalid_address (stepId : String)
    (cached : List AddressSearchResult) (addressId : String)
    (v : ApiOutcome) (h : addressId ∉ cached.map (·.id)) :
    stepSelect stepId cached addressId v =
      .form stepId [("base", "invalid_address")] ∧
    ∀ t e, stepSelect stepId cached addressId v ≠ .entryResult t e := by
  have hf : (cached.find? fun a => a.id == addressId) = none := by
    rw [List.find?_eq_none]
    intro a ha hbeq
    exact h (List.mem_map.mpr ⟨a, ha, beq_iff_eq.mp hbeq⟩)
  constructor
  · simp [stepSelect, hf]
  · intro t e
    simp [stepSelect, hf]

/-- Witness for C5 at a concrete input, mirroring
`test_step_select_invalid_address`. -/
theorem c5_select_invalid_address_witness :
    stepSelect "select" [⟨"valid-uuid", "Valid Street", "Municipality"⟩]
      "invalid-uuid" (.ok []) =
      .form "select" [("base", "invalid_address")] :=
  (c5_select_invalid_address "select"
    [⟨"valid-uuid", "Valid Street", "Municipality"⟩] "invalid-uuid"
    (.ok []) (by decide)).1

/-- Claim C6: when the coordinator snapshot is `None` the diagnostics
output has no `data` key at all while still carrying the config-entry
and coordinator sections, and the coordinator section's
`last_exception` field is the stringified last exception (`null` when
there is none) - a total projection that cannot raise. -/
theorem c6_diagnostics_without_data (entry : ConfigEntryInfo)
    (coord : CoordinatorState) (h : coord.data = none) :
    (configEntryDiagnostics entry coord).lookup "data" = none ∧
    (configEntryDiagnostics entry coord).lookup "config_entry" =
      some (.configEntrySection entry) ∧
    (configEntryDiagnostics entry coord).lookup "coordinator" =
      some (.coordinatorSection coord.last_update_success
        coord.last_exception) := by
  refine ⟨?_, ?_, ?_⟩ <;> simp [configEntryDiagnostics, h, List.lookup]

/-- Witness for C6 at a concrete input: a coordinator with no snapshot
and a stringified exception. -/
theorem c6_diagnostics_without_data_witness :
    (configEntryDiagnostics sampleEntryInfo
      ⟨none, false, some "ValueError: Test error"⟩).lookup "data" = none ∧
    (configEntryDiagnostics sampleEntryInfo
      ⟨none, false, some "ValueError: Test error"⟩).lookup "config_entry" =
      some (.configEntrySection sampleEntryInfo) ∧
    (configEntryDiagnostics sampleEntryInfo
      ⟨none, false, some "ValueError: Test error"⟩).lookup "coordinator" =
      some (.coordinatorSection false (some "ValueError: Test error")) :=
  c6_diagnostics_without_data sampleEntryInfo
    ⟨none, false, some "ValueError: Test error"⟩ rfl
/-- Counterexample for claim C7: the handler tests `if entry_id:`
(Python truthiness), so a supplied *empty* entry id - even one present
in the registry - falls into the refresh-all branch instead of
refreshing exactly the coordinator stored under it. -/
theorem c7_refresh_service_counterexample :
    (List.lookup "" [("", 0), ("x", 0)]).isSome = true ∧
    refreshService [("", 0), ("x", 0)] ⟨some ""⟩ ≠ .ok [("", 1), ("x", 0)] ∧
    refreshService [("", 0), ("x", 0)] ⟨some ""⟩ = .ok [("", 1), ("x", 1)] := by
  decide

/-- Claim C7 (amended): when a *non-empty* entry_id is supplied and
registered, exactly the coordinator stored under that id is refreshed;
when the entry_id is absent - or empty, which the code's truthiness test
treats as absent - every registered coordinator is refreshed. -/
theorem c7_refresh_service (registry : List (String × Nat)) (eid : String)
    (hne : eid ≠ "") (hreg : (registry.lookup eid).isSome = true) :
    refreshService registry ⟨some eid⟩ =
      .ok (registry.map fun p => if p.1 = eid then (p.1, p.2 + 1) else p) ∧
    refreshService registry ⟨none⟩ =
      .ok (registry.map fun p => (p.1, p.2 + 1)) ∧
    refreshService registry ⟨some ""⟩ =
      .ok (registry.map fun p => (p.1, p.2 + 1)) := by
  refine ⟨?_, rfl, ?_⟩
  · simp [refreshService, hne, hreg]
  · simp [refreshService]

/-- Witness for C7 at a concrete two-entry registry. -/
theorem c7_refresh_service_witness :
    refreshService [("a", 0), ("b", 3)] ⟨some "a"⟩ =
      .ok ([("a", 0), ("b", 3)].map fun p =>
        if p.1 = "a" then (p.1, p.2 + 1) else p) ∧
    refreshService [("a", 0), ("b", 3)] ⟨none⟩ =
      .ok ([("a", 0), ("b", 3)].map fun p => (p.1, p.2 + 1)) ∧
    refreshService [("a", 0), ("b", 3)] ⟨some ""⟩ =
      .ok ([("a", 0), ("b", 3)].map fun p => (p.1, p.2 + 1)) :=
  c7_refresh_service [("a", 0), ("b", 3)] "a" (by decide) (by decide)

/-- For any fraction-config table and any fraction with no configured
icon in it, the stored fallback `self._icon` is `"mdi:calendar-check"`
itself, so whenever `is_on` is not true the icon property returns the
generic check icon. -/
theorem sensorIcon_fallback_check (table : List (String × FractionConfig))
    (data : Option RenovasjonData) (fraction : String) (today : Nat)
    (hicon : (table.lookup fraction).bind (·.icon) = none)
    (_hoff : isOn data fraction today ≠ some true) :
    sensorIcon table data fraction today = "mdi:calendar-check" := by
  unfold sensorIcon
  split
  · rfl
  · unfold fractionIconOf
    rw [hicon]

/-- Counterexample for claim C9: the snapshot's fraction keys come from
live API data and every one of them gets a sensor, so a fraction absent
from the `WASTE_FRACTIONS` table is reachable ("Restavfall", whose icon
the repo's tests pin to `"mdi:trash-can"`, is configured in the
modelled table; "Spesialinnsamling 2026" has no configuration).  For
such a fraction the fallback `self._icon` is `"mdi:calendar-check"`
itself, so with `is_on` false the icon property still returns the
generic check icon - not a fraction-specific icon distinct from it.
By `sensorIcon_fallback_check` this collision holds for every table
giving the fraction no icon, independently of the modelled contents. -/
theorem c9_icon_counterexample :
    WASTE_FRACTIONS.lookup "Spesialinnsamling 2026" = none ∧
    isOn (some unconfiguredSnapshot) "Spesialinnsamling 2026" 6 =
      some false ∧
    sensorIcon WASTE_FRACTIONS (some unconfiguredSnapshot)
      "Spesialinnsamling 2026" 6 = "mdi:calendar-check" := by
  decide

/-- Claim C9 (amended): the icon property returns the generic check icon
whenever `is_on` is `true`, and otherwise the fraction's configured
icon, which itself defaults to the same generic check icon when the
fraction has none configured. -/
theorem c9_icon (table : List (String × FractionConfig))
    (data : Option RenovasjonData) (fraction : String) (today : Nat) :
    (isOn data fraction today = some true →
      sensorIcon table data fraction today = "mdi:calendar-check") ∧
    (isOn data fraction today ≠ some true →
      sensorIcon table data fraction today = fractionIconOf table fraction)
    := by
  constructor
  · intro h
    simp [sensorIcon, h]
  · intro h
    unfold sensorIcon
    split
    · rename_i heq
      exact absurd heq h
    · rfl

/-- Witness for C9: with the sample snapshot on day 6, "Matavfall" is on
and shows the check icon, "Restavfall" is off and shows its configured
fallback icon. -/
theorem c9_icon_witness :
    sensorIcon WASTE_FRACTIONS (some sampleSnapshot) "Matavfall" 6 =
      "mdi:calendar-check" ∧
    sensorIcon WASTE_FRACTIONS (some sampleSnapshot) "Restavfall" 6 =
      fractionIconOf WASTE_FRACTIONS "Restavfall" :=
  ⟨(c9_icon WASTE_FRACTIONS (some sampleSnapshot) "Matavfall" 6).1
      (by decide),
   (c9_icon WASTE_FRACTIONS (some sampleSnapshot) "Restavfall" 6).2
      (by decide)⟩
/-- The key list produced by grouping has no duplicate keys (dict keys
are unique). -/
theorem fractionKeys_nodup (ds : List WasteDisposal) :
    (fractionKeys ds).Nodup := by
  induction ds with
  | nil => simp [fractionKeys]
  | cons w ws ih =>
    rw [fractionKeys, List.nodup_cons]
    constructor
    · intro hmem
      have hne := (List.mem_filter.mp hmem).2
      simp at hne
    · exact List.Nodup.filter _ ih

/-- Every disposal's fraction appears among the grouping keys. -/
theorem mem_fractionKeys_of_mem (ds : List WasteDisposal)
    (w : WasteDisposal) (hw : w ∈ ds) : w.fraction ∈ fractionKeys ds := by
  induction ds with
  | nil => cases hw
  | cons v vs ih =>
    rcases List.mem_cons.mp hw with rfl | hw'
    · rw [fractionKeys]; exact List.mem_cons_self _ _
    · by_cases hf : w.fraction = v.fraction
      · rw [fractionKeys, hf]; exact List.mem_cons_self _ _
      · rw [fractionKeys]
        exact List.mem_cons_of_mem _
          (List.mem_filter.mpr ⟨ih hw', by simp [hf]⟩)

/-- Splitting a list over a duplicate-free covering key list by
fraction-filters is a permutation of the list. -/
theorem perm_flatMap_filter (ks : List String) :
    ∀ ds : List WasteDisposal, ks.Nodup → (∀ w ∈ ds, w.fraction ∈ ks) →
      (ks.flatMap fun k => ds.filter fun w => w.fraction == k).Perm ds := by
  induction ks with
  | nil =>
    intro ds _ hcov
    cases ds with
    | nil => simp
    | cons w ws => exact absurd (hcov w (List.mem_cons_self _ _)) (by simp)
  | cons k ks ih =>
    intro ds hnd hcov
    have hk : k ∉ ks := (List.nodup_cons.mp hnd).1
    have hnd' : ks.Nodup := (List.nodup_cons.mp hnd).2
    rw [List.flatMap_cons]
    have hstep : (ks.flatMap fun j => ds.filter fun w => w.fraction == j) =
        ks.flatMap fun j =>
          (ds.filter fun w => !(w.fraction == k)).filter
            fun w => w.fraction == j := by
      refine List.flatMap_congr ?_
      intro j hj
      have hjk : j ≠ k := fun h => hk (h ▸ hj)
      rw [List.filter_filter]
      refine List.filter_congr ?_
      intro w _
      by_cases hwj : w.fraction = j
      · simp [hwj, hjk]
      · simp [hwj]
    have hcov' : ∀ w ∈ ds.filter fun w => !(w.fraction == k),
        w.fraction ∈ ks := by
      intro w hw
      rcases List.mem_filter.mp hw with ⟨hin, hbk⟩
      rcases List.mem_cons.mp (hcov w hin) with h | h
      · simp [h] at hbk
      · exact h
    have ih' := ih (ds.filter fun w => !(w.fraction == k)) hnd' hcov'
    rw [hstep]
    exact ((List.Perm.refl _).append ih').trans
      (List.filter_append_perm (fun w => w.fraction == k) ds)

/-- Claim C4: grouping a disposal list by fraction places every record
exactly once in the map and only under the key equal to its own
`fraction` field - every `WasteDisposal` stored under key `F` has
`fraction = F`, and the concatenation of all groups is a permutation
(multiset equality) of the input list. -/
theorem c4_group_by_fraction (disposals : List WasteDisposal) :
    (∀ p ∈ groupByFraction disposals, ∀ w ∈ p.2, w.fraction = p.1) ∧
    ((groupByFraction disposals).flatMap (·.2)).Perm disposals := by
  constructor
  · intro p hp w hw
    rcases List.mem_map.mp hp with ⟨k, _, rfl⟩
    exact beq_iff_eq.mp (List.mem_filter.mp hw).2
  · rw [groupByFraction, List.flatMap_map]
    exact perm_flatMap_filter _ disposals (fractionKeys_nodup _)
      (fun w hw => mem_fractionKeys_of_mem _ _ hw)
/-- The unsorted event list built by `_get_events_for_range` over a
snapshot satisfying the grouping invariant equals the filtered,
one-event-per-disposal rendering of all disposals. -/
theorem eventsBase_eq (entryId : String)
    (table : List (String × FractionConfig)) (d : RenovasjonData)
    (s t : Nat)
    (hinv : ∀ p ∈ d.disposals_by_fraction, ∀ w ∈ p.2, w.fraction = p.1) :
    (d.disposals_by_fraction.flatMap fun p =>
      (p.2.filter fun w =>
        decide (s ≤ w.date.date) && decide (w.date.date ≤ t)).map
        (mkCalendarEvent entryId table p.1)) =
    ((d.disposals_by_fraction.flatMap (·.2)).filter fun w =>
        decide (s ≤ w.date.date) && decide (w.date.date ≤ t)).map
      fun w => mkCalendarEvent entryId table w.fraction w := by
  rw [List.filter_flatMap, List.map_flatMap]
  refine List.flatMap_congr ?_
  intro p hp
  refine List.map_congr_left ?_
  intro w hw
  rw [hinv p hp w (List.mem_of_mem_filter hw)]

/-- The comparison used by the calendar sort is transitive and total. -/
theorem eventLe_trans_total :
    (∀ a b c : CalendarEvent,
      decide (a.start ≤ b.start) = true → decide (b.start ≤ c.start) = true →
      decide (a.start ≤ c.start) = true) ∧
    (∀ a b : CalendarEvent,
      (decide (a.start ≤ b.start) || decide (b.start ≤ a.start)) = true) := by
  constructor
  · intro a b c hab hbc
    simp only [decide_eq_true_eq] at *
    omega
  · intro a b
    simp only [Bool.or_eq_true, decide_eq_true_eq]
    exact Nat.le_total _ _

/-- Claim C1: for a published snapshot (all records grouped under their
own fraction) and dates `s ≤ t`, the calendar range query is sorted
ascending by start, contains exactly one event per disposal whose
calendar date lies in `[s, t]` - all-day (`end = start + 1`), with
`summary` the disposal's fraction and `description` passed through -
and returns `[]` without a snapshot. -/
theorem c1_events_for_range (entryId : String)
    (table : List (String × FractionConfig)) (d : RenovasjonData)
    (s t : Nat) (_hst : s ≤ t)
    (hinv : ∀ p ∈ d.disposals_by_fraction, ∀ w ∈ p.2, w.fraction = p.1) :
    (getEventsForRange entryId table (some d) s t).Pairwise
      (fun a b => a.start ≤ b.start) ∧
    (getEventsForRange entryId table (some d) s t).Perm
      (((d.disposals_by_fraction.flatMap (·.2)).filter fun w =>
          decide (s ≤ w.date.date) && decide (w.date.date ≤ t)).map
        fun w => mkCalendarEvent entryId table w.fraction w) ∧
    (∀ e ∈ getEventsForRange entryId table (some d) s t,
      e.end_ = e.start + 1 ∧ s ≤ e.start ∧ e.start ≤ t) ∧
    getEventsForRange entryId table none s t = [] := by
  have hperm0 :
      (getEventsForRange entryId table (some d) s t).Perm
        (d.disposals_by_fraction.flatMap fun p =>
          (p.2.filter fun w =>
            decide (s ≤ w.date.date) && decide (w.date.date ≤ t)).map
            (mkCalendarEvent entryId table p.1)) :=
    List.mergeSort_perm _ _
  have hperm := hperm0.trans
    (by rw [eventsBase_eq entryId table d s t hinv])
  refine ⟨?_, hperm, ?_, rfl⟩
  · have hs := List.sorted_mergeSort
      (fun a b c => eventLe_trans_total.1 a b c)
      (fun a b => eventLe_trans_total.2 a b)
      (d.disposals_by_fraction.flatMap fun p =>
        (p.2.filter fun w =>
          decide (s ≤ w.date.date) && decide (w.date.date ≤ t)).map
          (mkCalendarEvent entryId table p.1))
    exact hs.imp fun h => of_decide_eq_true h
  · intro e he
    have he' := hperm.mem_iff.mp he
    rcases List.mem_map.mp he' with ⟨w, hw, rfl⟩
    have hcond := (List.mem_filter.mp hw).2
    rcases (Bool.and_eq_true _ _).mp hcond with ⟨h1, h2⟩
    exact ⟨rfl, of_decide_eq_true h1, of_decide_eq_true h2⟩

/-- Witness for C1 at the sample snapshot over the range `[0, 10]`. -/
theorem c1_events_for_range_witness :
    (getEventsForRange "test_entry_id" WASTE_FRACTIONS (some sampleSnapshot)
      0 10).Pairwise (fun a b => a.start ≤ b.start) ∧
    (getEventsForRange "test_entry_id" WASTE_FRACTIONS (some sampleSnapshot)
      0 10).Perm
      (((sampleSnapshot.disposals_by_fraction.flatMap (·.2)).filter fun w =>
          decide (0 ≤ w.date.date) && decide (w.date.date ≤ 10)).map
        fun w => mkCalendarEvent "test_entry_id" WASTE_FRACTIONS w.fraction w) ∧
    (∀ e ∈ getEventsForRange "test_entry_id" WASTE_FRACTIONS
        (some sampleSnapshot) 0 10,
      e.end_ = e.start + 1 ∧ 0 ≤ e.start ∧ e.start ≤ 10) ∧
    getEventsForRange "test_entry_id" WASTE_FRACTIONS none 0 10 = [] :=
  c1_events_for_range "test_entry_id" WASTE_FRACTIONS sampleSnapshot 0 10
    (by decide) (by decide)
/-- Unfolding lemma: the range query over a snapshot is the stable sort
by start of the per-fraction filtered event renderings. -/
theorem getEventsForRange_eq (entryId : String)
    (table : List (String × FractionConfig)) (d : RenovasjonData)
    (s t : Nat) :
    getEventsForRange entryId table (some d) s t =
      (d.disposals_by_fraction.flatMap fun p =>
        (p.2.filter fun w =>
          decide (s ≤ w.date.date) && decide (w.date.date ≤ t)).map
          (mkCalendarEvent entryId table p.1)).mergeSort
        (fun a b => decide (a.start ≤ b.start)) := rfl

/-- Claim C3: with a snapshot, the calendar's `event` property returns
the earliest event whose start lies in `[today, today + 365]`; it is
`None` exactly when the snapshot is `None` or no disposal falls in that
window. -/
theorem c3_next_event (entryId : String)
    (table : List (String × FractionConfig)) (d : RenovasjonData)
    (today : Nat) :
    nextEvent entryId table none today = none ∧
    ((nextEvent entryId table (some d) today = none) ↔
      (∀ p ∈ d.disposals_by_fraction, ∀ w ∈ p.2,
        ¬(today ≤ w.date.date ∧ w.date.date ≤ today + 365))) ∧
    (∀ ev, nextEvent entryId table (some d) today = some ev →
      (∃ p ∈ d.disposals_by_fraction, ∃ w ∈ p.2,
        today ≤ w.date.date ∧ w.date.date ≤ today + 365 ∧
        ev.start = w.date.date) ∧
      (∀ p ∈ d.disposals_by_fraction, ∀ w ∈ p.2,
        today ≤ w.date.date → w.date.date ≤ today + 365 →
        ev.start ≤ w.date.date)) := by
  refine ⟨rfl, ?_, ?_⟩
  · have h1 : (nextEvent entryId table (some d) today = none) ↔
        getEventsForRange entryId table (some d) today (today + 365) = [] := by
      cases hL : getEventsForRange entryId table (some d) today (today + 365)
        with
      | nil => simp [nextEvent, hL]
      | cons e rest => simp [nextEvent, hL]
    rw [h1, getEventsForRange_eq]
    constructor
    · intro h
      have hp := List.mergeSort_perm
        (d.disposals_by_fraction.flatMap fun p =>
          (p.2.filter fun w =>
            decide (today ≤ w.date.date) &&
              decide (w.date.date ≤ today + 365)).map
            (mkCalendarEvent entryId table p.1))
        (fun a b => decide (a.start ≤ b.start))
      rw [h] at hp
      have hnil := (List.Perm.nil_eq hp).symm
      simp only [List.flatMap_eq_nil_iff, List.map_eq_nil_iff,
        List.filter_eq_nil_iff, Bool.and_eq_true, decide_eq_true_eq] at hnil
      intro p hp' w hw hcontra
      exact hnil p hp' w hw ⟨hcontra.1, hcontra.2⟩
    · intro h
      have hnil : (d.disposals_by_fraction.flatMap fun p =>
          (p.2.filter fun w =>
            decide (today ≤ w.date.date) &&
              decide (w.date.date ≤ today + 365)).map
            (mkCalendarEvent entryId table p.1)) = [] := by
        simp only [List.flatMap_eq_nil_iff, List.map_eq_nil_iff,
          List.filter_eq_nil_iff, Bool.and_eq_true, decide_eq_true_eq]
        intro p hp' w hw hcontra
        exact h p hp' w hw hcontra
      rw [hnil]
      exact List.mergeSort_nil
  · intro ev hev
    cases hL : getEventsForRange entryId table (some d) today (today + 365)
      with
    | nil =>
      have : nextEvent entryId table (some d) today = none := by
        simp [nextEvent, hL]
      rw [this] at hev
      cases hev
    | cons e rest =>
      have hsome : nextEvent entryId table (some d) today = some e := by
        simp [nextEvent, hL]
      rw [hsome] at hev
      have hee := Option.some.inj hev
      subst hee
      have hperm : (getEventsForRange entryId table (some d) today
          (today + 365)).Perm
          (d.disposals_by_fraction.flatMap fun p =>
            (p.2.filter fun w =>
              decide (today ≤ w.date.date) &&
                decide (w.date.date ≤ today + 365)).map
              (mkCalendarEvent entryId table p.1)) := by
        rw [getEventsForRange_eq]
        exact List.mergeSort_perm _ _
      have hmemL : e ∈ getEventsForRange entryId table (some d) today
          (today + 365) := by
        rw [hL]; exact List.mem_cons_self _ _
      have hmemBase := hperm.mem_iff.mp hmemL
      rcases List.mem_flatMap.mp hmemBase with ⟨p, hp, hmem2⟩
      rcases List.mem_map.mp hmem2 with ⟨w, hwf, hEq⟩
      rcases List.mem_filter.mp hwf with ⟨hwin, hcond⟩
      rcases (Bool.and_eq_true _ _).mp hcond with ⟨h1, h2⟩
      have hsorted : (getEventsForRange entryId table (some d) today
          (today + 365)).Pairwise (fun a b => a.start ≤ b.start) := by
        rw [getEventsForRange_eq]
        exact (List.sorted_mergeSort
          (fun a b c => eventLe_trans_total.1 a b c)
          (fun a b => eventLe_trans_total.2 a b) _).imp
          fun hab => of_decide_eq_true hab
      refine ⟨⟨p, hp, w, hwin, of_decide_eq_true h1, of_decide_eq_true h2,
        ?_⟩, ?_⟩
      · rw [← hEq]
        rfl
      · intro p' hp' w' hw' hin1 hin2
        have hmk : mkCalendarEvent entryId table p'.1 w' ∈
            d.disposals_by_fraction.flatMap fun q =>
              (q.2.filter fun w'' =>
                decide (today ≤ w''.date.date) &&
                  decide (w''.date.date ≤ today + 365)).map
                (mkCalendarEvent entryId table q.1) :=
          List.mem_flatMap.mpr ⟨p', hp', List.mem_map.mpr
            ⟨w', List.mem_filter.mpr ⟨hw', by simp [hin1, hin2]⟩, rfl⟩⟩
        have hmkL := hperm.mem_iff.mpr hmk
        rw [hL] at hmkL hsorted
        rcases List.mem_cons.mp hmkL with hcase | hcase
        · rw [← hcase]
          exact Nat.le_refl _
        · exact (List.pairwise_cons.mp hsorted).1 _ hcase

/-- A one-disposal snapshot used by the C3 witness. -/
theorem c3_next_event_witness :
    nextEvent "test_entry_id" WASTE_FRACTIONS none 6 = none ∧
    ((nextEvent "test_entry_id" WASTE_FRACTIONS (some sampleSnapshot) 400 =
        none) ↔
      (∀ p ∈ sampleSnapshot.disposals_by_fraction, ∀ w ∈ p.2,
        ¬(400 ≤ w.date.date ∧ w.date.date ≤ 400 + 365))) :=
  ⟨(c3_next_event "test_entry_id" WASTE_FRACTIONS sampleSnapshot 6).1,
   (c3_next_event "test_entry_id" WASTE_FRACTIONS sampleSnapshot 400).2.1⟩
/-- Every digit produced by the fuelled decimal expansion is below 10. -/
theorem decDigitsRev_lt10 (fuel : Nat) :
    ∀ n, ∀ d ∈ decDigitsRev fuel n, d < 10 := by
  induction fuel with
  | zero => intro n d hd; cases hd
  | succ f ih =>
    intro n d hd
    match n, hd with
    | m + 1, hd =>
      rcases List.mem_cons.mp hd with rfl | h
      · exact Nat.mod_lt _ (by omega)
      · exact ih _ _ h

/-- With enough fuel the fuelled decimal expansion agrees with
`Nat.digits 10`. -/
theorem decDigitsRev_eq_digits (fuel : Nat) :
    ∀ n, n ≤ fuel → decDigitsRev fuel n = Nat.digits 10 n := by
  induction fuel with
  | zero =>
    intro n h
    interval_cases n
    simp [decDigitsRev]
  | succ f ih =>
    intro n h
    match n with
    | 0 => simp [decDigitsRev]
    | m + 1 =>
      rw [decDigitsRev, Nat.digits_def' (by norm_num : (1:Nat) < 10)
        (Nat.succ_pos m)]
      congr 1
      have hdiv : (m + 1) / 10 < m + 1 := Nat.div_lt_self (Nat.succ_pos m)
        (by norm_num)
      exact ih _ (by omega)

/-- Digit characters decode back to their digit. -/
theorem decode_decDigitChar (d : Nat) (hd : d < 10) :
    (decDigitChar d).toNat - 48 = d := by
  interval_cases d <;> decide

/-- No digit character is an underscore. -/
theorem decDigitChar_ne_underscore (d : Nat) (hd : d < 10) :
    decDigitChar d ≠ '_' := by
  interval_cases d <;> decide

/-- The modelled isoformat rendering is injective. -/
theorem isoDate_inj {m n : Nat} (h : Nat.isoDate m = Nat.isoDate n) :
    m = n := by
  have hl : (decDigitsRev m m).reverse.map decDigitChar =
      (decDigitsRev n n).reverse.map decDigitChar := congrArg String.data h
  have hdecode : ∀ l : List Nat, (∀ d ∈ l, d < 10) →
      (l.map decDigitChar).map (fun c => c.toNat - 48) = l := by
    intro l hl10
    rw [List.map_map]
    have : ∀ d ∈ l, ((fun c : Char => c.toNat - 48) ∘ decDigitChar) d =
        id d := by
      intro d hd
      exact decode_decDigitChar d (hl10 d hd)
    rw [List.map_congr_left this, List.map_id]
  have h10m : ∀ d ∈ (decDigitsRev m m).reverse, d < 10 := fun d hd =>
    decDigitsRev_lt10 m m d (List.mem_reverse.mp hd)
  have h10n : ∀ d ∈ (decDigitsRev n n).reverse, d < 10 := fun d hd =>
    decDigitsRev_lt10 n n d (List.mem_reverse.mp hd)
  have hrev : (decDigitsRev m m).reverse = (decDigitsRev n n).reverse := by
    rw [← hdecode _ h10m, ← hdecode _ h10n, hl]
  have hdig : Nat.digits 10 m = Nat.digits 10 n := by
    rw [← decDigitsRev_eq_digits m m (Nat.le_refl m),
      ← decDigitsRev_eq_digits n n (Nat.le_refl n)]
    exact List.reverse_inj.mp hrev
  have := congrArg (Nat.ofDigits 10) hdig
  rwa [Nat.ofDigits_digits, Nat.ofDigits_digits] at this

/-- The modelled isoformat rendering never contains an underscore. -/
theorem underscore_not_mem_isoDate (n : Nat) :
    '_' ∉ (Nat.isoDate n).data := by
  intro h
  rcases List.mem_map.mp h with ⟨d, hd, hdc⟩
  have hlt : d < 10 := decDigitsRev_lt10 n n d (List.mem_reverse.mp hd)
  exact decDigitChar_ne_underscore d hlt hdc

/-- Cancellation around the last underscore: if the suffixes after an
underscore are underscore-free, a concatenation equality splits. -/
theorem append_underscore_cancel :
    ∀ (a b s1 s2 : List Char), '_' ∉ s1 → '_' ∉ s2 →
      a ++ '_' :: s1 = b ++ '_' :: s2 → a = b ∧ s1 = s2 := by
  intro a
  induction a with
  | nil =>
    intro b s1 s2 h1 h2 heq
    cases b with
    | nil =>
      simp only [List.nil_append, List.cons.injEq] at heq
      exact ⟨rfl, heq.2⟩
    | cons c bs =>
      simp only [List.nil_append, List.cons_append, List.cons.injEq] at heq
      exact absurd (heq.2 ▸ List.mem_append_right bs
        (List.mem_cons_self _ _)) h1
  | cons c as ih =>
    intro b s1 s2 h1 h2 heq
    cases b with
    | nil =>
      simp only [List.cons_append, List.nil_append, List.cons.injEq] at heq
      exact absurd (heq.2.symm ▸ List.mem_append_right as
        (List.mem_cons_self _ _)) h2
    | cons cb bs =>
      simp only [List.cons_append, List.cons.injEq] at heq
      rcases ih bs s1 s2 h1 h2 heq.2 with ⟨hab, hs⟩
      exact ⟨by rw [heq.1, hab], hs⟩

/-- Characterization of uid collisions: two uids built for the same
config entry agree exactly when the translation keys and the dates
agree. -/
theorem calendarUid_inj (entryId t1 t2 : String) (d1 d2 : Nat) :
    calendarUid entryId t1 d1 = calendarUid entryId t2 d2 ↔
      (t1 = t2 ∧ d1 = d2) := by
  constructor
  · intro h
    have hdata := congrArg String.data h
    simp only [calendarUid, String.data_append, List.append_assoc] at hdata
    have hdata2 := List.append_cancel_left hdata
    have hdata3 := List.append_cancel_left hdata2
    have hdata4 := List.append_cancel_left hdata3
    have hsplit := append_underscore_cancel t1.data t2.data
      (Nat.isoDate d1).data (Nat.isoDate d2).data
      (underscore_not_mem_isoDate d1) (underscore_not_mem_isoDate d2)
      (by simpa using hdata4)
    exact ⟨String.ext hsplit.1, isoDate_inj (String.ext hsplit.2)⟩
  · rintro ⟨rfl, rfl⟩
    rfl

/-- Counterexample for claim C8: the uid uses the fraction's translation
key (`lower()` + space-to-underscore, for fractions without a configured
key), which is not injective: the distinct fractions "A B" and "A_B"
yield identical uids for the same entry and date. -/
theorem c8_uid_counterexample :
    ("A B" : String) ≠ "A_B" ∧
    (mkCalendarEvent "e" WASTE_FRACTIONS "A B"
      ⟨⟨5, 0⟩, "A B", none, 0⟩).uid =
    (mkCalendarEvent "e" WASTE_FRACTIONS "A_B"
      ⟨⟨5, 0⟩, "A_B", none, 0⟩).uid := by
  decide

/-- Claim C8 (amended): the uid is a deterministic function of exactly
the config entry id, the fraction's *translation key* and the event
date (independent of description, symbol or time-of-day, so re-rendering
a snapshot reproduces identical uids); uids for the same entry collide
exactly when both the translation key and the date coincide - distinct
fractions sharing a translation key collide, while differing dates or
differing translation keys give different uids. -/
theorem c8_uid (entryId : String) (table : List (String × FractionConfig))
    (f1 f2 : String) (w1 w2 : WasteDisposal) :
    (mkCalendarEvent entryId table f1 w1).uid =
      calendarUid entryId (translationKeyOf table f1) w1.date.date ∧
    ((mkCalendarEvent entryId table f1 w1).uid =
        (mkCalendarEvent entryId table f2 w2).uid ↔
      (translationKeyOf table f1 = translationKeyOf table f2 ∧
        w1.date.date = w2.date.date)) :=
  ⟨rfl, calendarUid_inj entryId (translationKeyOf table f1)
    (translationKeyOf table f2) w1.date.date w2.date.date⟩

/-- Witness for C8: two renderings of the same disposal date (with
different times-of-day and descriptions) produce the identical uid, and
a different date produces a different uid. -/
theorem c8_uid_witness :
    (mkCalendarEvent "test_entry_id" WASTE_FRACTIONS "Restavfall"
      ⟨⟨5, 3600⟩, "Restavfall", none, 15⟩).uid =
      (mkCalendarEvent "test_entry_id" WASTE_FRACTIONS "Restavfall"
        ⟨⟨5, 0⟩, "Restavfall", some "other", 15⟩).uid ∧
    (mkCalendarEvent "test_entry_id" WASTE_FRACTIONS "Restavfall"
      ⟨⟨5, 0⟩, "Restavfall", none, 15⟩).uid ≠
      (mkCalendarEvent "test_entry_id" WASTE_FRACTIONS "Restavfall"
        ⟨⟨12, 0⟩, "Restavfall", none, 15⟩).uid :=
  ⟨(c8_uid "test_entry_id" WASTE_FRACTIONS "Restavfall" "Restavfall"
      ⟨⟨5, 3600⟩, "Restavfall", none, 15⟩
      ⟨⟨5, 0⟩, "Restavfall", some "other", 15⟩).2.mpr ⟨rfl, rfl⟩,
   fun h =>
    absurd (((c8_uid "test_entry_id" WASTE_FRACTIONS "Restavfall"
      "Restavfall" ⟨⟨5, 0⟩, "Restavfall", none, 15⟩
      ⟨⟨12, 0⟩, "Restavfall", none, 15⟩).2.mp h).2) (by decide)⟩
